import Mathlib

/-!
# Verification of the WebRTC signaling core (`src/utils/webrtc.ts`)

Shallow embedding of the `WebRTCManager` class from `src/utils/webrtc.ts` of
the meeting application, together with theorems settling the specification
claims about it.

The manager is single-threaded and event-driven; each realtime-channel
callback (`presence sync`, `presence join`, `presence leave`, and each
`broadcast` handler for `offer` / `answer` / `ice-candidate`) is embedded as a
pure function from manager state to manager state plus its observable outputs
(outbound channel messages and UI callback invocations).  `RTCPeerConnection`
objects are embedded as `Conn` records identified by an allocation counter
`nextConnId`; the `peers` JavaScript `Map` is an association list with
JavaScript `Map.set` / `Map.delete` semantics, while `conns` records every
connection ever allocated so that a connection evicted from the map (but never
closed) remains visible to the model, exactly as the real object stays alive
in the browser.
-/

/-- Kind of a local media track (the local stream from `getUserMedia` holds
video and audio tracks). -/
inductive TrackKind
  | video
  | audio
deriving DecidableEq, Repr

/-- A local media track: its kind, its `enabled` flag (toggled by
`toggleVideo` / `toggleAudio`) and its `stopped` flag (set by
`track.stop()` in `cleanup`). -/
structure Track where
  kind : TrackKind
  enabled : Bool
  stopped : Bool
deriving DecidableEq, Repr

/-- Type of a session description (`RTCSessionDescriptionInit.type`). -/
inductive SdpType
  | offer
  | answer
deriving DecidableEq, Repr

/-- Abstract session description: its type and the userId of the peer whose
connection generated it (`createOffer` / `createAnswer`). -/
structure Sdp where
  type : SdpType
  origin : String
deriving DecidableEq, Repr

/-- Embeds one `RTCPeerConnection` created by
`WebRTCManager.createPeerConnection` (`webrtc.ts` lines 128-186).
`connId` is the allocation number; `candidates` records the candidates passed
to `addIceCandidate`; `tracksAttached` records that the local stream tracks
were added at construction; `closed` records `pc.close()`. -/
structure Conn where
  connId : Nat
  remoteUserId : String
  localDesc : Option Sdp
  remoteDesc : Option Sdp
  candidates : List Nat
  tracksAttached : Bool
  closed : Bool
deriving DecidableEq, Repr

/-- Payload of a signaling broadcast message, one constructor per broadcast
event kind (`offer`, `answer`, `ice-candidate`). -/
inductive Payload
  | offer (sdp : Sdp)
  | answer (sdp : Sdp)
  | candidate (c : Nat)
deriving DecidableEq, Repr

/-- A signaling message published on the meeting channel: `{from, to, ...}`
(`from` and `to` are Lean keywords, so the fields are `sender` and `dest`). -/
structure Msg where
  sender : String
  dest : String
  payload : Payload
deriving DecidableEq, Repr

/-- UI callback invocations made by the manager: `onParticipantJoined`,
`onParticipantLeft`, `onStreamAdded`. -/
inductive Evt
  | participantJoined (userId userName : String)
  | participantLeft (userId : String)
  | streamAdded (userId : String) (stream : Nat)
deriving DecidableEq, Repr

/-- Embeds the Supabase realtime channel handle held in `this.channel`:
whether the local presence record is tracked and whether
`supabase.removeChannel` was called on it.  The manager never nulls the
field, so the model keeps the record after removal. -/
structure Channel where
  tracked : Bool
  removed : Bool
deriving DecidableEq, Repr

/-- A presence record carried by sync / join / leave presence events
(`{ userId, userName, online_at }`, with the timestamp abstracted away). -/
structure Presence where
  userId : String
  userName : String
deriving DecidableEq, Repr

/-- State of one `WebRTCManager` instance: the constructor fields `userId`
and `userName`, `localStream` (`none` before/without `getUserMedia`),
the `peers` map from remote userId to the connId of its `RTCPeerConnection`
(association list with JavaScript `Map` semantics), the pool `conns` of every
connection allocated so far, the allocation counter, and the channel. -/
structure MState where
  userId : String
  userName : String
  localStream : Option (List Track)
  peers : List (String × Nat)
  conns : List Conn
  nextConnId : Nat
  channel : Option Channel
deriving DecidableEq, Repr

/-- Result of running one event handler: the new manager state, the messages
sent on the channel, and the UI callbacks invoked, in order. -/
structure StepRes where
  state : MState
  sent : List Msg
  emitted : List Evt
deriving DecidableEq, Repr

/-- Handler result with no state change, no message and no callback. -/
def noRes (s : MState) : StepRes := { state := s, sent := [], emitted := [] }

/-- JavaScript `Map.get` on the peers map. -/
def peersGet (s : MState) (uid : String) : Option Nat :=
  (s.peers.find? (fun p => p.1 == uid)).map Prod.snd

/-- JavaScript `Map.has` on the peers map. -/
def peersHas (s : MState) (uid : String) : Bool :=
  s.peers.any (fun p => p.1 == uid)

/-- JavaScript `Map.set`: overwrite the value in place when the key is
present, append the binding otherwise. -/
def peersSet (l : List (String × Nat)) (k : String) (v : Nat) : List (String × Nat) :=
  if l.any (fun p => p.1 == k) then
    l.map (fun p => if p.1 == k then (k, v) else p)
  else l ++ [(k, v)]

/-- JavaScript `Map.delete`: drop the binding for the key. -/
def peersDelete (l : List (String × Nat)) (k : String) : List (String × Nat) :=
  l.filter (fun p => p.1 != k)

/-- Update the connection with the given id in the pool. -/
def updateConn (s : MState) (cid : Nat) (f : Conn → Conn) : MState :=
  { s with conns := s.conns.map (fun c => if c.connId == cid then f c else c) }

/-- Look up a connection by id in the pool. -/
def getConn (s : MState) (cid : Nat) : Option Conn :=
  s.conns.find? (fun c => c.connId == cid)

/-- The connection currently mapped to a remote user, if any. -/
def connFor (s : MState) (uid : String) : Option Conn :=
  (peersGet s uid).bind (getConn s)

/-- Embeds `pc.close()`. -/
def closeConn (c : Conn) : Conn := { c with closed := true }

/-- Embeds `WebRTCManager.createPeerConnection(remoteUserId, isInitiator)`
(`webrtc.ts` lines 128-186): allocate a fresh `RTCPeerConnection`, put it in
the `peers` map (replacing any existing binding, as `Map.set` does — the
source has no duplicate check here and does not close a replaced
connection), attach the local tracks when a local stream exists, and, when
initiator, create an offer, set it as local description and send it to the
remote user. -/
def createPeerConnection (s : MState) (remoteUserId : String) (isInitiator : Bool) :
    StepRes :=
  let cid := s.nextConnId
  let conn : Conn :=
    { connId := cid, remoteUserId := remoteUserId, localDesc := none,
      remoteDesc := none, candidates := [],
      tracksAttached := s.localStream.isSome, closed := false }
  let s1 : MState :=
    { s with conns := s.conns ++ [conn],
             peers := peersSet s.peers remoteUserId cid,
             nextConnId := cid + 1 }
  if isInitiator then
    let offer : Sdp := { type := SdpType.offer, origin := s.userId }
    let s2 := updateConn s1 cid (fun c => { c with localDesc := some offer })
    { state := s2,
      sent := [{ sender := s.userId, dest := remoteUserId, payload := Payload.offer offer }],
      emitted := [] }
  else
    { state := s1, sent := [], emitted := [] }

/-- The answering tail of `WebRTCManager.handleOffer` (`webrtc.ts` lines
196-211): set the received offer as remote description, create an answer,
set it as local description and send it back.  `pre` carries the messages
already sent earlier in the handler (none in practice: the responder-side
`createPeerConnection` sends nothing). -/
def answerOffer (s : MState) (cid : Nat) (remoteUserId : String) (offer : Sdp)
    (pre : List Msg) : StepRes :=
  let s1 := updateConn s cid (fun c => { c with remoteDesc := some offer })
  let ans : Sdp := { type := SdpType.answer, origin := s.userId }
  let s2 := updateConn s1 cid (fun c => { c with localDesc := some ans })
  { state := s2,
    sent := pre ++ [{ sender := s.userId, dest := remoteUserId, payload := Payload.answer ans }],
    emitted := [] }

/-- Embeds `WebRTCManager.handleOffer` (`webrtc.ts` lines 188-212): if no
peer connection exists for the sender, create one as responder; then, if a
connection exists, apply the offer and reply with an answer. -/
def handleOffer (s : MState) (remoteUserId : String) (offer : Sdp) : StepRes :=
  match peersGet s remoteUserId with
  | some cid => answerOffer s cid remoteUserId offer []
  | none =>
      let r := createPeerConnection s remoteUserId false
      match peersGet r.state remoteUserId with
      | some cid => answerOffer r.state cid remoteUserId offer r.sent
      | none => r

/-- Embeds `WebRTCManager.handleAnswer` (`webrtc.ts` lines 214-219): apply
the answer as remote description when a connection for the sender exists;
otherwise do nothing. -/
def handleAnswer (s : MState) (remoteUserId : String) (answer : Sdp) : StepRes :=
  match peersGet s remoteUserId with
  | some cid =>
      { state := updateConn s cid (fun c => { c with remoteDesc := some answer }),
        sent := [], emitted := [] }
  | none => noRes s

/-- Embeds `WebRTCManager.handleIceCandidate` (`webrtc.ts` lines 221-226):
pass the candidate to `addIceCandidate` when a connection for the sender
exists; otherwise do nothing (the candidate is dropped — there is no queue). -/
def handleIceCandidate (s : MState) (remoteUserId : String) (cand : Nat) : StepRes :=
  match peersGet s remoteUserId with
  | some cid =>
      { state := updateConn s cid (fun c => { c with candidates := c.candidates ++ [cand] }),
        sent := [], emitted := [] }
  | none => noRes s

/-- Embeds `WebRTCManager.removePeer` (`webrtc.ts` lines 228-234): close the
connection of the given user and delete its map entry; a no-op when absent. -/
def removePeer (s : MState) (uid : String) : MState :=
  match peersGet s uid with
  | some cid =>
      let s1 := updateConn s cid closeConn
      { s1 with peers := peersDelete s1.peers uid }
  | none => s

/-- Embeds the `presence sync` handler (`webrtc.ts` lines 57-71): for every
presence in the snapshot (the first record per key) whose userId differs
from self and has no entry in the peers map, invoke `onParticipantJoined`.
The loop never modifies manager state. -/
def onPresenceSync (s : MState) (snapshot : List Presence) : StepRes :=
  match snapshot with
  | [] => noRes s
  | p :: ps =>
      let here :=
        if p.userId != s.userId && !(peersHas s p.userId) then
          [Evt.participantJoined p.userId p.userName]
        else []
      let rest := onPresenceSync s ps
      { state := rest.state, sent := rest.sent, emitted := here ++ rest.emitted }

/-- Embeds the `presence join` handler (`webrtc.ts` lines 73-81): for every
new presence whose userId differs from self, call
`createPeerConnection(userId, true)`.  Note: no `peers.has` check, and no
`onParticipantJoined` invocation, unlike the sync handler. -/
def onPresenceJoin (s : MState) (newPresences : List Presence) : StepRes :=
  match newPresences with
  | [] => noRes s
  | p :: ps =>
      let r := if p.userId != s.userId then createPeerConnection s p.userId true else noRes s
      let rest := onPresenceJoin r.state ps
      { state := rest.state, sent := r.sent ++ rest.sent, emitted := r.emitted ++ rest.emitted }

/-- Embeds the `presence leave` handler (`webrtc.ts` lines 83-90): for every
departed presence, `removePeer` then `onParticipantLeft`. -/
def onPresenceLeave (s : MState) (leftPresences : List Presence) : StepRes :=
  match leftPresences with
  | [] => noRes s
  | p :: ps =>
      let s1 := removePeer s p.userId
      let rest := onPresenceLeave s1 ps
      { state := rest.state, sent := rest.sent,
        emitted := Evt.participantLeft p.userId :: rest.emitted }

/-- Embeds the three broadcast handlers (`webrtc.ts` lines 93-112): each
checks `payload.to === this.userId` and dispatches to the matching handler;
a message addressed elsewhere is ignored. -/
def onBroadcast (s : MState) (m : Msg) : StepRes :=
  if m.dest == s.userId then
    match m.payload with
    | Payload.offer o => handleOffer s m.sender o
    | Payload.answer a => handleAnswer s m.sender a
    | Payload.candidate c => handleIceCandidate s m.sender c
  else noRes s

/-- Embeds `WebRTCManager.toggleVideo(enabled)` (`webrtc.ts` lines 236-242):
set the `enabled` flag of every local video track; nothing else, and no
channel message. -/
def toggleVideo (s : MState) (enabled : Bool) : StepRes :=
  { state :=
      { s with localStream := s.localStream.map (fun ts => ts.map (fun t =>
          if t.kind = TrackKind.video then { t with enabled := enabled } else t)) },
    sent := [], emitted := [] }

/-- Embeds `WebRTCManager.toggleAudio(enabled)` (`webrtc.ts` lines 244-250). -/
def toggleAudio (s : MState) (enabled : Bool) : StepRes :=
  { state :=
      { s with localStream := s.localStream.map (fun ts => ts.map (fun t =>
          if t.kind = TrackKind.audio then { t with enabled := enabled } else t)) },
    sent := [], emitted := [] }

/-- Embeds `WebRTCManager.cleanup` (`webrtc.ts` lines 252-267): stop every
local track, close every connection still referenced by the `peers` map
(connections evicted from the map earlier are NOT closed), clear the map,
and untrack/remove the channel (the field itself is kept, as in the
source). -/
def cleanup (s : MState) : MState :=
  { s with
    localStream := s.localStream.map (fun ts => ts.map (fun t => { t with stopped := true })),
    conns := s.conns.map (fun c =>
      if s.peers.any (fun p => p.2 == c.connId) then closeConn c else c),
    peers := [],
    channel := s.channel.map (fun ch => { ch with tracked := false, removed := true }) }

/-- Abstract failure of `navigator.mediaDevices.getUserMedia`. -/
inductive MediaError
  | denied
deriving DecidableEq, Repr

/-- Embeds `WebRTCManager.initialize` (`webrtc.ts` lines 46-126) up to its
suspension points: `getUserMedia` is awaited first (line 48); a rejection
propagates out of the method before the channel is created, subscribed or
tracked, so the error branch returns the state untouched.  On success the
local stream is stored, the channel is created, subscribed and the local
presence tracked, and the stream is returned. -/
def initManager (s : MState) (media : Except MediaError (List Track)) :
    MState × Except MediaError (List Track) :=
  match media with
  | Except.error e => (s, Except.error e)
  | Except.ok ts =>
      ({ s with localStream := some ts,
                channel := some { tracked := true, removed := false } },
       Except.ok ts)

/-- Embeds the `pc.ontrack` handler installed by `createPeerConnection`
(`webrtc.ts` lines 142-147): when the event carries a non-empty stream
list, invoke `onStreamAdded` with the first stream. -/
def ontrackHandler (remoteUserId : String) (streams : List Nat) : List Evt :=
  match streams with
  | [] => []
  | st :: _ => [Evt.streamAdded remoteUserId st]

/-- A connection that completed negotiation: both descriptions set and not
closed (the `Stable` state of the spec's negotiation machine). -/
def connStable (c : Conn) : Bool :=
  c.localDesc.isSome && c.remoteDesc.isSome && !c.closed

/-- Number of live (allocated and never closed) connections for a remote
user, across the whole pool — including connections evicted from the peers
map by a later `Map.set`. -/
def liveLinksFor (s : MState) (u : String) : Nat :=
  (s.conns.filter (fun c => c.remoteUserId == u && !c.closed)).length

/-- One manager event-handler invocation, as a step relation on states. -/
inductive Step : MState → MState → Prop
  | presenceSync (s : MState) (snap : List Presence) : Step s (onPresenceSync s snap).state
  | presenceJoin (s : MState) (ps : List Presence) : Step s (onPresenceJoin s ps).state
  | presenceLeave (s : MState) (ps : List Presence) : Step s (onPresenceLeave s ps).state
  | broadcast (s : MState) (m : Msg) : Step s (onBroadcast s m).state
  | toggleV (s : MState) (b : Bool) : Step s (toggleVideo s b).state
  | toggleA (s : MState) (b : Bool) : Step s (toggleAudio s b).state
  | initStep (s : MState) (media : Except MediaError (List Track)) :
      Step s (initManager s media).1
  | doCleanup (s : MState) : Step s (cleanup s)

/-- The peers map binds each remote userId at most once (its key list has no
duplicates). -/
def PeersUnique (s : MState) : Prop := (s.peers.map Prod.fst).Nodup

/-! ## Concrete states used by witnesses, counterexamples and scenarios -/

/-- A local video track as delivered by `getUserMedia`. -/
def trackV : Track := { kind := TrackKind.video, enabled := true, stopped := false }

/-- A local audio track as delivered by `getUserMedia`. -/
def trackAu : Track := { kind := TrackKind.audio, enabled := true, stopped := false }

/-- A live, subscribed and tracked channel. -/
def chanLive : Channel := { tracked := true, removed := false }

/-- Manager state of user A ("Alice") right after a successful
`initialize`, alone in the meeting. -/
def stA : MState :=
  { userId := "A", userName := "Alice", localStream := some [trackV, trackAu],
    peers := [], conns := [], nextConnId := 0, channel := some chanLive }

/-- Manager state of user B ("Bob") right after a successful `initialize`. -/
def stB : MState :=
  { userId := "B", userName := "Bob", localStream := some [trackV, trackAu],
    peers := [], conns := [], nextConnId := 0, channel := some chanLive }

/-- Presence record of user A. -/
def pA : Presence := { userId := "A", userName := "Alice" }

/-- Presence record of user B. -/
def pB : Presence := { userId := "B", userName := "Bob" }

/-- State of A after its presence-join handler saw B join (A now holds an
initiator connection to B). -/
def stAwithB : MState := (onPresenceJoin stA [pB]).state

/-- An offer description generated by B. -/
def sdpOfferB : Sdp := { type := SdpType.offer, origin := "B" }

/-- An answer description generated by B. -/
def sdpAnswerB : Sdp := { type := SdpType.answer, origin := "B" }

/-! ## C6: addressing filter on broadcast handlers -/

/-- C6: every inbound handshake message (offer, answer or ice-candidate) is
processed only when its `to` field equals the local userId; a message
addressed to any other user is silently ignored — no state change, no
outbound message, no callback, no error. -/
theorem c6_addressing_filter (s : MState) (m : Msg) (h : m.dest ≠ s.userId) :
    onBroadcast s m = noRes s := by
  simp [onBroadcast, h]

/-- Witness for C6 at a concrete input: a candidate addressed to "C" is
ignored by A's manager. -/
theorem c6_addressing_filter_witness :
    ("C" : String) ≠ stA.userId ∧
      onBroadcast stA { sender := "B", dest := "C", payload := Payload.candidate 3 } = noRes stA :=
  ⟨by decide, c6_addressing_filter stA _ (by decide)⟩

/-! ## C8: media acquisition failure aborts before any signaling -/

/-- C8: when local media acquisition fails, `initialize` propagates the
error immediately with the manager state untouched: in particular no channel
is created or subscribed, no presence is tracked and no message is sent. -/
theorem c8_media_failure_no_signaling (s : MState) (e : MediaError) :
    initManager s (Except.error e) = (s, Except.error e) := rfl

/-! ## C10: answer / candidate from an unknown sender is a silent no-op -/

/-- C10: an answer or an ICE candidate addressed to self whose sender has no
PeerLink is a silent no-op — the state (peers map and all connections) is
unchanged, nothing is sent, nothing is emitted, no error is raised. -/
theorem c10_answer_candidate_no_link_noop (s : MState) (u : String) (a : Sdp) (c : Nat)
    (h : peersGet s u = none) :
    onBroadcast s { sender := u, dest := s.userId, payload := Payload.answer a } = noRes s ∧
    onBroadcast s { sender := u, dest := s.userId, payload := Payload.candidate c } = noRes s := by
  constructor <;> simp [onBroadcast, handleAnswer, handleIceCandidate, h]

/-- Witness for C10: B is unknown to A, so B's answer and candidate leave
A's manager untouched. -/
theorem c10_answer_candidate_no_link_noop_witness :
    peersGet stA "B" = none ∧
    (onBroadcast stA { sender := "B", dest := stA.userId, payload := Payload.answer sdpAnswerB } = noRes stA ∧
     onBroadcast stA { sender := "B", dest := stA.userId, payload := Payload.candidate 7 } = noRes stA) :=
  ⟨by decide, c10_answer_candidate_no_link_noop stA "B" sdpAnswerB 7 (by decide)⟩

/-! ## C7: idempotence of close / removePeer / cleanup -/

/-- Looking up a key in a map it was just deleted from fails. -/
lemma peersDelete_find (l : List (String × Nat)) (u : String) :
    (peersDelete l u).find? (fun p => p.1 == u) = none := by
  rw [List.find?_eq_none]
  intro x hx
  have hmem := List.mem_filter.mp hx
  simpa using hmem.2

/-- The function `removePeer` is a no-op when the user has no map entry. -/
lemma removePeer_of_none {s : MState} {u : String} (h : peersGet s u = none) :
    removePeer s u = s := by
  simp [removePeer, h]

/-- After `removePeer`, the user has no map entry. -/
lemma peersGet_removePeer_self (s : MState) (u : String) :
    peersGet (removePeer s u) u = none := by
  cases h : peersGet s u with
  | none => rw [removePeer_of_none h]; exact h
  | some cid =>
      unfold removePeer
      rw [h]
      simp [peersGet, peersDelete_find]

/-- Calling `removePeer` twice for the same user equals calling it once
(the second call finds no entry and leaves the state alone). -/
lemma removePeer_idem (s : MState) (u : String) :
    removePeer (removePeer s u) u = removePeer s u :=
  removePeer_of_none (peersGet_removePeer_self s u)

/-- Calling `cleanup` twice equals calling it once: stopping stopped tracks,
closing the (now empty) peers map, clearing it again and
untracking/removing the already-removed channel all change nothing. -/
lemma cleanup_idem (s : MState) : cleanup (cleanup s) = cleanup s := by
  simp only [cleanup, List.any_nil, Bool.false_eq_true, if_false, List.map_id,
    Option.map_map, List.map_map]
  congr 1
  · congr 1
    funext ts
    simp only [Function.comp]
    rw [List.map_map]
    congr 1

/-- C7: `close()` on a PeerLink, `removePeer` for a user, and `cleanup()` on
the session are idempotent — the second call is a no-op leaving the same
final state as a single call, and raises no error. -/
theorem c7_close_cleanup_idempotent (s : MState) (u : String) (c : Conn) :
    closeConn (closeConn c) = closeConn c ∧
    removePeer (removePeer s u) u = removePeer s u ∧
    cleanup (cleanup s) = cleanup s :=
  ⟨rfl, removePeer_idem s u, cleanup_idem s⟩

/-! ## C9: toggles are pure track-flag flips -/

/-- Toggling a kind's enabled flag preserves every track's kind and
stopped flag (only the enabled flag of matching tracks can change). -/
lemma toggle_kind_stopped_preserved (s : MState) (b : Bool) (k : TrackKind) :
    (s.localStream.map (fun ts => ts.map (fun t =>
        if t.kind = k then { t with enabled := b } else t))).map
      (List.map (fun t => (t.kind, t.stopped))) =
    s.localStream.map (List.map (fun t => (t.kind, t.stopped))) := by
  rw [Option.map_map]
  cases s.localStream with
  | none => rfl
  | some ts =>
      show some _ = some _
      congr 1
      simp only [Function.comp]
      rw [List.map_map]
      apply List.map_congr_left
      intro t ht
      by_cases h : t.kind = k <;> simp [h]

/-- C9: `toggleVideo(enabled)` and `toggleAudio(enabled)` only flip the
enabled flag of the local tracks of the matching kind: they send no
signaling message, invoke no callback, and leave the peers map, every
connection, and the channel unchanged. -/
theorem c9_toggle_frame_effect (s : MState) (b : Bool) :
    (toggleVideo s b).sent = [] ∧ (toggleVideo s b).emitted = [] ∧
    (toggleVideo s b).state.peers = s.peers ∧
    (toggleVideo s b).state.conns = s.conns ∧
    (toggleVideo s b).state.channel = s.channel ∧
    (toggleVideo s b).state.localStream =
      s.localStream.map (List.map (fun t =>
        if t.kind = TrackKind.video then { t with enabled := b } else t)) ∧
    (toggleVideo s b).state.localStream.map (List.map (fun t => (t.kind, t.stopped))) =
      s.localStream.map (List.map (fun t => (t.kind, t.stopped))) ∧
    (toggleAudio s b).sent = [] ∧ (toggleAudio s b).emitted = [] ∧
    (toggleAudio s b).state.peers = s.peers ∧
    (toggleAudio s b).state.conns = s.conns ∧
    (toggleAudio s b).state.channel = s.channel ∧
    (toggleAudio s b).state.localStream =
      s.localStream.map (List.map (fun t =>
        if t.kind = TrackKind.audio then { t with enabled := b } else t)) ∧
    (toggleAudio s b).state.localStream.map (List.map (fun t => (t.kind, t.stopped))) =
      s.localStream.map (List.map (fun t => (t.kind, t.stopped))) :=
  ⟨rfl, rfl, rfl, rfl, rfl, rfl, toggle_kind_stopped_preserved s b TrackKind.video,
   rfl, rfl, rfl, rfl, rfl, rfl, toggle_kind_stopped_preserved s b TrackKind.audio⟩

/-! ## Two-participant scenario: A joins first, then B -/

/-- A message is an offer. -/
def isOffer (m : Msg) : Bool :=
  match m.payload with
  | Payload.offer _ => true
  | _ => false

/-- Step 1 of the scenario: A's presence-join handler observes B joining.
A creates an initiator connection and sends an offer. -/
def scenA1 : StepRes := onPresenceJoin stA [pB]

/-- Step 2: A's presence-sync handler fires with the full snapshot; B is
already in A's peers map, so nothing happens. -/
def scenA2 : StepRes := onPresenceSync scenA1.state [pA, pB]

/-- Step 3: B's presence-sync handler (fired on subscription) reveals A,
who was present before B subscribed; B invokes `onParticipantJoined`. -/
def scenB1 : StepRes := onPresenceSync stB [pA, pB]

/-- The offer A sends to B in the scenario. -/
def offerAtoB : Msg :=
  { sender := "A", dest := "B",
    payload := Payload.offer { type := SdpType.offer, origin := "A" } }

/-- The answer B sends back to A in the scenario. -/
def answerBtoA : Msg :=
  { sender := "B", dest := "A",
    payload := Payload.answer { type := SdpType.answer, origin := "B" } }

/-- Step 4: the relay delivers A's offer to B; B creates a responder
connection and answers. -/
def scenB2 : StepRes := onBroadcast scenB1.state offerAtoB

/-- Step 5: the relay delivers B's answer to A; A applies it as remote
description. -/
def scenA3 : StepRes := onBroadcast scenA2.state answerBtoA

/-- All messages sent on the channel across the scenario, in order. -/
def scenTrace : List Msg :=
  scenA1.sent ++ scenA2.sent ++ scenB1.sent ++ scenB2.sent ++ scenA3.sent

/-- Counterexample to C2 as stated: in the A-then-B scenario exactly one
offer is sent, but it goes from A to B — there is no offer from B to A. -/
theorem c2_offer_direction_counterexample :
    (scenTrace.filter isOffer).length = 1 ∧
    scenTrace.filter (fun m => isOffer m && m.sender == "B" && m.dest == "A") = [] ∧
    scenTrace.filter isOffer = [offerAtoB] := by decide

/-- C2 (amended): in the A-then-B scenario, B discovers A through the
presence sync (raising `onParticipantJoined` and sending nothing), A
discovers B through the presence join event, exactly one offer is sent for
the pair and it goes from A to B (the side already present initiates), B
replies with exactly one answer, both sides then hold a Stable connection
(local and remote descriptions set, not closed), and delivery of B's media
on A's side raises `onStreamAdded`. -/
theorem c2_scenario_amended :
    scenB1.emitted = [Evt.participantJoined "A" "Alice"] ∧
    scenB1.sent = [] ∧
    scenA1.sent = [offerAtoB] ∧
    scenA2.sent = [] ∧ scenA2.emitted = [] ∧
    scenB2.sent = [answerBtoA] ∧
    scenA3.sent = [] ∧
    scenTrace.filter isOffer = [offerAtoB] ∧
    (connFor scenA3.state "B").map connStable = some true ∧
    (connFor scenB2.state "A").map connStable = some true ∧
    ontrackHandler "B" [1] = [Evt.streamAdded "B" 1] := by decide

/-- Counterexample to C3 as stated: a presence-join event for a fresh
remote participant B (not equal to self) makes A's join handler emit no
`participantDiscovered` notification at all. -/
theorem c3_join_handler_emits_no_discovery :
    pB.userId ≠ stA.userId ∧ (onPresenceJoin stA [pB]).emitted = [] := by decide

/-- Counterexample to C1 as stated: a duplicate presence-join event for
the already-linked participant B replaces B's peers-map entry, but the
replaced `RTCPeerConnection` is never closed, so two live connections for B
exist at once. -/
theorem c1_duplicate_join_two_live_links :
    liveLinksFor (onPresenceJoin stAwithB [pB]).state "B" = 2 ∧
    ((onPresenceJoin stAwithB [pB]).state.peers.filter (fun p => p.1 == "B")).length = 1 := by
  decide

/-- Counterexample to C4 as stated: an ICE candidate from B that arrives
before B's PeerLink exists leaves A's state completely unchanged (it is not
queued anywhere), and after B's offer later creates the link and the remote
description is set, the candidate list is still empty — the early candidate
was silently dropped, never applied. -/
theorem c4_early_candidate_dropped :
    peersGet stA "B" = none ∧
    (onBroadcast stA { sender := "B", dest := "A", payload := Payload.candidate 7 }).state = stA ∧
    (connFor (onBroadcast
        (onBroadcast stA { sender := "B", dest := "A", payload := Payload.candidate 7 }).state
        { sender := "B", dest := "A", payload := Payload.offer sdpOfferB }).state "B").map
      Conn.candidates = some [] := by decide

/-- Counterexample to C5 as stated: after `cleanup()` the peers map is
empty, yet a stale offer callback creates a brand-new PeerLink and sends an
answer — an observable state change after teardown. -/
theorem c5_stale_offer_creates_link_after_cleanup :
    (cleanup stAwithB).peers = [] ∧
    (onBroadcast (cleanup stAwithB)
        { sender := "B", dest := "A", payload := Payload.offer sdpOfferB }).state.peers =
      [("B", 1)] ∧
    (onBroadcast (cleanup stAwithB)
        { sender := "B", dest := "A", payload := Payload.offer sdpOfferB }).sent ≠ [] := by
  decide

/-- The sync handler never changes the manager state. -/
lemma onPresenceSync_state (s : MState) (snap : List Presence) :
    (onPresenceSync s snap).state = s := by
  induction snap with
  | nil => rfl
  | cons p ps ih => simp only [onPresenceSync]; exact ih

/-- The sync handler sends nothing on the channel. -/
lemma onPresenceSync_sent (s : MState) (snap : List Presence) :
    (onPresenceSync s snap).sent = [] := by
  induction snap with
  | nil => rfl
  | cons p ps ih => simp only [onPresenceSync]; exact ih

/-- The sync handler invokes `onParticipantJoined` exactly for the snapshot
identities different from self that have no peers-map entry. -/
lemma onPresenceSync_emitted (s : MState) (snap : List Presence) :
    (onPresenceSync s snap).emitted =
      (snap.filter (fun p => p.userId != s.userId && !(peersHas s p.userId))).map
        (fun p => Evt.participantJoined p.userId p.userName) := by
  induction snap with
  | nil => rfl
  | cons p ps ih =>
      simp only [onPresenceSync, List.filter_cons]
      by_cases h : (p.userId != s.userId && !(peersHas s p.userId)) = true
      · simp [h, ih]
      · simp [h, ih]

/-- The function `createPeerConnection` invokes no UI callback. -/
lemma createPeerConnection_emitted (s : MState) (u : String) (b : Bool) :
    (createPeerConnection s u b).emitted = [] := by
  unfold createPeerConnection
  split <;> rfl

/-- The join handler invokes no UI callback at all — in particular it never
emits `participantDiscovered`. -/
lemma onPresenceJoin_emitted (ps : List Presence) : ∀ s : MState,
    (onPresenceJoin s ps).emitted = [] := by
  induction ps with
  | nil => intro s; rfl
  | cons p ps ih =>
      intro s
      simp only [onPresenceJoin]
      by_cases h : (p.userId != s.userId) = true
      · simp [h, ih, createPeerConnection_emitted]
      · simp [h, ih, noRes]

/-- The leave handler invokes `onParticipantLeft` exactly once per departed
presence. -/
lemma onPresenceLeave_emitted (ps : List Presence) : ∀ s : MState,
    (onPresenceLeave s ps).emitted = ps.map (fun p => Evt.participantLeft p.userId) := by
  induction ps with
  | nil => intro s; rfl
  | cons p ps ih =>
      intro s
      simp only [onPresenceLeave, List.map_cons]
      rw [ih]

/-- C3 (amended): only the presence sync handler emits
`participantDiscovered` (`onParticipantJoined`) — once per snapshot identity
different from self with no existing peers-map entry, with no state change;
the presence join handler emits no discovery notification at all (it creates
an initiator connection instead); the leave handler emits exactly one
`participantRemoved` (`onParticipantLeft`) per departed presence. -/
theorem c3_presence_events_amended (s : MState) (snap ps qs : List Presence) :
    (onPresenceSync s snap).state = s ∧
    (onPresenceSync s snap).emitted =
      (snap.filter (fun p => p.userId != s.userId && !(peersHas s p.userId))).map
        (fun p => Evt.participantJoined p.userId p.userName) ∧
    (onPresenceJoin s ps).emitted = [] ∧
    (onPresenceLeave s qs).emitted = qs.map (fun p => Evt.participantLeft p.userId) :=
  ⟨onPresenceSync_state s snap, onPresenceSync_emitted s snap,
   onPresenceJoin_emitted ps s, onPresenceLeave_emitted qs s⟩

/-- C4 (amended): an ICE candidate addressed to self from a sender with no
PeerLink is silently dropped — no queue exists, the state is unchanged and
no error is raised; when a PeerLink for the sender does exist, the candidate
is handed to the transport's `addIceCandidate` immediately, regardless of
negotiation state (the code relies on the transport to accept it). -/
theorem c4_candidate_handling_amended (s : MState) (u : String) (c : Nat) :
    (peersGet s u = none →
      onBroadcast s { sender := u, dest := s.userId, payload := Payload.candidate c } = noRes s) ∧
    (∀ cid, peersGet s u = some cid →
      onBroadcast s { sender := u, dest := s.userId, payload := Payload.candidate c } =
        { state := updateConn s cid (fun cn => { cn with candidates := cn.candidates ++ [c] }),
          sent := [], emitted := [] }) := by
  constructor
  · intro h
    simp [onBroadcast, handleIceCandidate, h]
  · intro cid h
    simp [onBroadcast, handleIceCandidate, h]

/-- Witness for C4 (amended): both branches at concrete states — A with no
link to B (candidate dropped), and A holding link 0 to B (candidate
appended to connection 0). -/
theorem c4_candidate_handling_amended_witness :
    peersGet stA "B" = none ∧
    onBroadcast stA { sender := "B", dest := stA.userId, payload := Payload.candidate 7 } = noRes stA ∧
    peersGet stAwithB "B" = some 0 ∧
    onBroadcast stAwithB { sender := "B", dest := stAwithB.userId, payload := Payload.candidate 7 } =
      { state := updateConn stAwithB 0 (fun cn => { cn with candidates := cn.candidates ++ [7] }),
        sent := [], emitted := [] } :=
  ⟨by decide, (c4_candidate_handling_amended stA "B" 7).1 (by decide), by decide,
   (c4_candidate_handling_amended stAwithB "B" 7).2 0 (by decide)⟩

/-- The function `cleanup` empties the peers map. -/
lemma cleanup_peers (s : MState) : (cleanup s).peers = [] := rfl

/-- The function `cleanup` does not change the local identity. -/
lemma cleanup_userId (s : MState) : (cleanup s).userId = s.userId := rfl

/-- The function `cleanup` does not change the allocation counter. -/
lemma cleanup_nextConnId (s : MState) : (cleanup s).nextConnId = s.nextConnId := rfl

/-- After `cleanup`, no user has a peers-map entry. -/
lemma peersGet_cleanup (s : MState) (u : String) : peersGet (cleanup s) u = none := rfl

/-- C5 (amended): after `cleanup()` completes, a stale answer or stale ICE
candidate callback is a harmless no-op (the peers map is empty, so nothing
is looked up, applied or sent, and no error is raised); a stale offer
callback, however, is NOT ignored: it creates a fresh responder PeerLink for
its sender. -/
theorem c5_stale_callbacks_amended (s : MState) (u : String) (a : Sdp) (c : Nat) (o : Sdp) :
    onBroadcast (cleanup s) { sender := u, dest := s.userId, payload := Payload.answer a } =
      noRes (cleanup s) ∧
    onBroadcast (cleanup s) { sender := u, dest := s.userId, payload := Payload.candidate c } =
      noRes (cleanup s) ∧
    (onBroadcast (cleanup s) { sender := u, dest := s.userId, payload := Payload.offer o }).state.peers =
      [(u, s.nextConnId)] := by
  refine ⟨?_, ?_, ?_⟩
  · simp [onBroadcast, cleanup_userId, handleAnswer, peersGet_cleanup]
  · simp [onBroadcast, cleanup_userId, handleIceCandidate, peersGet_cleanup]
  · simp [onBroadcast, cleanup_userId, handleOffer, peersGet_cleanup,
      createPeerConnection, answerOffer, updateConn, peersGet, peersSet, cleanup_peers,
      cleanup_nextConnId]

/-- JavaScript `Map.set` preserves key uniqueness: overwriting keeps the key
list unchanged, and a fresh key is appended only when absent. -/
lemma peersSet_keys_nodup {l : List (String × Nat)} (k : String) (v : Nat)
    (h : (l.map Prod.fst).Nodup) : ((peersSet l k v).map Prod.fst).Nodup := by
  unfold peersSet
  split
  · have heq : (l.map (fun p => if p.1 == k then (k, v) else p)).map Prod.fst
        = l.map Prod.fst := by
      rw [List.map_map]
      apply List.map_congr_left
      intro p hp
      by_cases hpk : p.1 = k <;> simp [hpk, Function.comp]
    rw [heq]
    exact h
  · next hany =>
    rw [List.map_append]
    refine List.Nodup.append h (List.nodup_singleton k) ?_
    intro a ha hk
    simp at hk
    subst hk
    rcases List.mem_map.mp ha with ⟨p, hp, hfst⟩
    exact hany (List.any_eq_true.mpr ⟨p, hp, by simp [hfst]⟩)

/-- JavaScript `Map.delete` preserves key uniqueness (the key list of the
result is a sublist of the original). -/
lemma peersDelete_keys_nodup {l : List (String × Nat)} (k : String)
    (h : (l.map Prod.fst).Nodup) : ((peersDelete l k).map Prod.fst).Nodup :=
  ((List.filter_sublist l).map Prod.fst).nodup h

/-- The function `createPeerConnection` updates the peers map with exactly one
`Map.set` of the remote userId. -/
lemma createPeerConnection_state_peers (s : MState) (u : String) (b : Bool) :
    (createPeerConnection s u b).state.peers = peersSet s.peers u s.nextConnId := by
  unfold createPeerConnection
  split <;> rfl

/-- The answering tail of `handleOffer` never touches the peers map. -/
lemma answerOffer_state_peers (s : MState) (cid : Nat) (u : String) (o : Sdp)
    (pre : List Msg) : (answerOffer s cid u o pre).state.peers = s.peers := rfl

/-- The function `handleOffer` either leaves the peers map unchanged (link already
present) or performs one `Map.set` for the sender (responder creation). -/
lemma handleOffer_state_peers (s : MState) (u : String) (o : Sdp) :
    (handleOffer s u o).state.peers = s.peers ∨
    (handleOffer s u o).state.peers = peersSet s.peers u s.nextConnId := by
  cases h : peersGet s u with
  | some cid => left; simp only [handleOffer, h]; exact answerOffer_state_peers s cid u o []
  | none =>
      right
      simp only [handleOffer, h]
      cases h2 : peersGet (createPeerConnection s u false).state u with
      | some cid2 =>
          simp only [answerOffer_state_peers]
          exact createPeerConnection_state_peers s u false
      | none => exact createPeerConnection_state_peers s u false

/-- The function `handleAnswer` never touches the peers map. -/
lemma handleAnswer_state_peers (s : MState) (u : String) (a : Sdp) :
    (handleAnswer s u a).state.peers = s.peers := by
  unfold handleAnswer
  cases h : peersGet s u <;> rfl

/-- The function `handleIceCandidate` never touches the peers map. -/
lemma handleIceCandidate_state_peers (s : MState) (u : String) (c : Nat) :
    (handleIceCandidate s u c).state.peers = s.peers := by
  unfold handleIceCandidate
  cases h : peersGet s u <;> rfl

/-- The function `removePeer` leaves the peers map unchanged or deletes one binding. -/
lemma removePeer_peers (s : MState) (u : String) :
    (removePeer s u).peers = s.peers ∨ (removePeer s u).peers = peersDelete s.peers u := by
  unfold removePeer
  cases h : peersGet s u with
  | some cid => right; rfl
  | none => left; rfl

/-- The presence-join handler preserves key uniqueness of the peers map
(each iteration is a `Map.set`). -/
lemma onPresenceJoin_nodup (ps : List Presence) : ∀ s : MState,
    PeersUnique s → PeersUnique (onPresenceJoin s ps).state := by
  induction ps with
  | nil => intro s h; exact h
  | cons p ps ih =>
      intro s h
      simp only [onPresenceJoin]
      apply ih
      by_cases hg : (p.userId != s.userId) = true
      · simp only [hg, if_true]
        unfold PeersUnique
        rw [createPeerConnection_state_peers]
        exact peersSet_keys_nodup _ _ h
      · simp only [hg, if_false]
        exact h

/-- The function `removePeer` preserves key uniqueness of the peers map. -/
lemma removePeer_nodup {s : MState} (u : String) (h : PeersUnique s) :
    PeersUnique (removePeer s u) := by
  rcases removePeer_peers s u with heq | heq <;> unfold PeersUnique <;> rw [heq]
  · exact h
  · exact peersDelete_keys_nodup u h

/-- The presence-leave handler preserves key uniqueness of the peers map. -/
lemma onPresenceLeave_nodup (ps : List Presence) : ∀ s : MState,
    PeersUnique s → PeersUnique (onPresenceLeave s ps).state := by
  induction ps with
  | nil => intro s h; exact h
  | cons p ps ih =>
      intro s h
      simp only [onPresenceLeave]
      exact ih _ (removePeer_nodup p.userId h)

/-- Every broadcast handler (offer, answer, ice-candidate, and the
addressed-elsewhere no-op) preserves key uniqueness of the peers map. -/
lemma onBroadcast_nodup {s : MState} (m : Msg) (h : PeersUnique s) :
    PeersUnique (onBroadcast s m).state := by
  unfold onBroadcast
  by_cases hd : (m.dest == s.userId) = true
  · simp only [hd, if_true]
    cases m.payload with
    | offer o =>
        rcases handleOffer_state_peers s m.sender o with heq | heq <;>
          unfold PeersUnique <;> rw [heq]
        · exact h
        · exact peersSet_keys_nodup _ _ h
    | answer a =>
        unfold PeersUnique
        rw [handleAnswer_state_peers]
        exact h
    | candidate c =>
        unfold PeersUnique
        rw [handleIceCandidate_state_peers]
        exact h
  · simp only [hd, if_false]
    exact h

/-- C1 (amended): the peers map holds at most one entry per remote userId
at every instant — the property is an invariant of every manager event
handler (sync, join, leave, the three broadcast handlers, the toggles,
initialization and cleanup).  A duplicate join event replaces the map entry
rather than duplicating it; the replaced connection object, however, is not
closed (see the counterexample), so map-entry uniqueness — not liveness
uniqueness — is what the code guarantees. -/
theorem c1_peers_map_unique_invariant {s s1 : MState}
    (hu : PeersUnique s) (hstep : Step s s1) : PeersUnique s1 := by
  cases hstep with
  | presenceSync snap => rw [onPresenceSync_state]; exact hu
  | presenceJoin ps => exact onPresenceJoin_nodup ps s hu
  | presenceLeave ps => exact onPresenceLeave_nodup ps s hu
  | broadcast m => exact onBroadcast_nodup m hu
  | toggleV b => exact hu
  | toggleA b => exact hu
  | initStep media => cases media <;> exact hu
  | doCleanup => unfold PeersUnique; rw [cleanup_peers]; exact List.nodup_nil

/-- Witness for C1 (amended): the invariant holds at the concrete state
`stA` and is transported across a concrete presence-join step. -/
theorem c1_peers_map_unique_invariant_witness :
    PeersUnique stA ∧ PeersUnique (onPresenceJoin stA [pB]).state :=
  ⟨by unfold PeersUnique; decide,
   c1_peers_map_unique_invariant (by unfold PeersUnique; decide)
     (Step.presenceJoin stA [pB])⟩
